import Mathlib

/-!
Verification of `generate_detailed_qa_pairs.py`: a single-pass script that
turns a handbook dataset (JSON array of entries with `image` and
`ground_truth` fields) into question/answer training pairs.

The embedding models Python strings as `List Char` (`Str`), Python/JSON
values as the inductive `PyVal`, and the specific regular expressions of the
script by their backtracking semantics (leftmost match, lazy groups realised
as least-index searches).  Randomness (`random.sample`, `random.choice`) is
modelled by explicit oracle functions passed as parameters, so theorems hold
for every possible draw.
-/

abbrev Str := List Char

/-- The whitespace characters of Python's `\s` (ASCII part) and `str.strip`. -/
def isWs (c : Char) : Bool :=
  c = ' ' || c = '\t' || c = '\n' || c = '\r' || c = Char.ofNat 11 || c = Char.ofNat 12

/-- Python `str.strip()`: remove leading and trailing whitespace. -/
def strip (s : Str) : Str :=
  ((s.dropWhile isWs).reverse.dropWhile isWs).reverse

/-- One step of `re.sub(r"\s+", " ", s)`: a maximal run of whitespace becomes
one space.  Fuel-structural so that it reduces on concrete inputs. -/
def collapseWsAux : Nat → Str → Str
  | 0, _ => []
  | _ + 1, [] => []
  | fuel + 1, c :: rest =>
    if isWs c then ' ' :: collapseWsAux fuel (rest.dropWhile isWs)
    else c :: collapseWsAux fuel rest

/-- Python `re.sub(r"\s+", " ", s)`. -/
def collapseWs (s : Str) : Str := collapseWsAux s.length s

/-- Whether `pat` matches the text `s` at its start. -/
def startsWith : Str → Str → Bool
  | [], _ => true
  | _ :: _, [] => false
  | p :: ps, c :: cs => if p = c then startsWith ps cs else false

/-- Whether `pat` matches `s` at position `i`. -/
def startsWithAt (pat s : Str) (i : Nat) : Bool := startsWith pat (s.drop i)

/-- Case-insensitive (ASCII) match of `pat` at the start of `s`. -/
def ciStartsWith : Str → Str → Bool
  | [], _ => true
  | _ :: _, [] => false
  | p :: ps, c :: cs => if p.toLower = c.toLower then ciStartsWith ps cs else false

/-- Case-insensitive match of `pat` at position `i` of `s`. -/
def ciStartsWithAt (pat s : Str) (i : Nat) : Bool := ciStartsWith pat (s.drop i)

/-- Least `j ≥ i` with `p j = true`, probing `fuel` positions. -/
def findIdxFromAux (p : Nat → Bool) : Nat → Nat → Option Nat
  | 0, _ => none
  | fuel + 1, i => if p i then some i else findIdxFromAux p fuel (i + 1)

/-- Least position `j ≥ i` where `pat` occurs in `s` (regex `re.search`-style
scan of a literal from position `i`). -/
def findFrom (pat s : Str) (i : Nat) : Option Nat :=
  findIdxFromAux (startsWithAt pat s) (s.length + 1 - i) i

/-- The characters of `s` from position `a` (inclusive) to `b` (exclusive):
a regex group capture. -/
def strSlice (s : Str) (a b : Nat) : Str := (s.drop a).take (b - a)

/-- Whether `pat` occurs somewhere in `s`. -/
def containsPat (pat s : Str) : Bool := (findFrom pat s 0).isSome

/-! ## Python/JSON values

`json.load` produces nested lists, dicts (string keys), strings, numbers,
booleans and `None`.  `PyVal` models these values. -/

inductive PyVal where
  | str (s : Str)
  | int (n : Int)
  | list (xs : List PyVal)
  | dict (kvs : List (Str × PyVal))
  | bool (b : Bool)
  | null

/-- Python's `needle in v` for a string needle: key membership for dicts,
substring containment for strings, element equality for lists, and a
`TypeError` for values that are not containers. -/
def pyContains (needle : Str) (v : PyVal) : Except Str Bool :=
  match v with
  | .str t => .ok (containsPat needle t)
  | .list xs => .ok (xs.any (fun x => match x with | .str t => decide (t = needle) | _ => false))
  | .dict kvs => .ok (kvs.any (fun kv => decide (kv.1 = needle)))
  | .int _ => .error "TypeError: argument of type 'int' is not iterable".data
  | .bool _ => .error "TypeError: argument of type 'bool' is not iterable".data
  | .null => .error "TypeError: argument of type 'NoneType' is not iterable".data

/-- Python's `v[k]` for a string key `k`: dict item access; a `TypeError`
for strings, lists and non-subscriptable values. -/
def pyGetItem (v : PyVal) (k : Str) : Except Str PyVal :=
  match v with
  | .dict kvs =>
    match kvs.find? (fun kv => decide (kv.1 = k)) with
    | some kv => .ok kv.2
    | none => .error "KeyError".data
  | _ => .error "TypeError".data

/-- Association-list lookup by string key (first match), as used to read a
Python dict built by repeated assignment. -/
def lookupStr {α : Type} : List (Str × α) → Str → Option α
  | [], _ => none
  | kv :: rest, k => if kv.1 = k then some kv.2 else lookupStr rest k

/-- Python dict assignment `d[k] = v`: replace the value in place if the key
is present (insertion order kept), else append the new pair. -/
def dictInsert : List (Str × Str) → Str → Str → List (Str × Str)
  | [], k, v => [(k, v)]
  | kv :: rest, k, v => if kv.1 = k then (k, v) :: rest else kv :: dictInsert rest k v

/-! ## The regular expressions of the script

`extract_flowchart_sections` uses
  `re.search(r'<traffic_sign name="(.+?)">', gt)`               (no DOTALL) and
  `re.finditer(r'<section title="(.+?)">(.*?)'`
  `r'(?=<section title|KEY WORDS|</traffic_sign>)', gt, re.DOTALL)`.
`extract_keywords` uses
  `re.search(r'KEY ?WORDS?(.*)', gt, re.IGNORECASE | re.DOTALL)` and
  `re.findall(r'"(.*?)"', kw_section)`.
Each is embedded by its backtracking semantics: lazy quantifiers become
least-index searches, alternation in a lookahead becomes "first position
where any alternative matches". -/

/-- The literal that must open a sign-name match. -/
def signOpen : Str := "<traffic_sign name=\"".data

/-- The literal `">` closing the lazy group of both tag patterns. -/
def quoteClose : Str := "\">".data

/-- The literal opening a section match. -/
def secOpen : Str := "<section title=\"".data

/-- The three alternatives of the section-body lookahead
`(?=<section title|KEY WORDS|</traffic_sign>)`, exactly as written in the
source: the keyword marker is the case-sensitive literal `KEY WORDS`. -/
def termSection : Str := "<section title".data
def termKeyWords : Str := "KEY WORDS".data
def termClose : Str := "</traffic_sign>".data

/-- Whether one of the three lookahead alternatives matches at position `i`. -/
def codeTermAt (s : Str) (i : Nat) : Bool :=
  startsWithAt termSection s i || startsWithAt termKeyWords s i || startsWithAt termClose s i

/-- End of the lazy group `(.+?)` of the sign-name pattern when matching
without DOTALL from position `x` (the group start): the least `k > x` such
that `">` stands at `k` and no newline was consumed.  `none` when a newline
or the end of the text is hit first. -/
def nameEndAux (s : Str) : Nat → Nat → Option Nat
  | 0, _ => none
  | fuel + 1, x =>
    match s.get? x with
    | none => none
    | some c =>
      if c = '\n' then none
      else if startsWithAt quoteClose s (x + 1) then some (x + 1)
      else nameEndAux s fuel (x + 1)

/-- See `nameEndAux`; `j` is the position right after `signOpen`. -/
def nameEnd (s : Str) (j : Nat) : Option Nat := nameEndAux s (s.length + 1) j

/-- `re.search(r'<traffic_sign name="(.+?)">', gt)`: scan for the leftmost
position where the whole pattern matches and return the group capture. -/
def signSearchAux (s : Str) : Nat → Nat → Option Str
  | 0, _ => none
  | fuel + 1, cur =>
    match findFrom signOpen s cur with
    | none => none
    | some p =>
      match nameEnd s (p + signOpen.length) with
      | none => signSearchAux s fuel (p + 1)
      | some k => some (strSlice s (p + signOpen.length) k)

def signSearch (s : Str) : Option Str := signSearchAux s (s.length + 1) 0

/-- `re.finditer` for the section pattern, generic in the lookahead test so
that the case-sensitive behaviour of the source and the case-insensitive
reading of the specification can both be expressed.  At scan position `cur`:
find the next `<section title="`, close the lazy title with the first `">`
after at least one title character, end the lazy body at the first position
(at or after the body start) where `isTerm` holds, and resume at the match
end (the lookahead is zero-width).  A position where the pattern cannot be
completed is skipped, as the regex engine does. -/
def scanWithAux (isTerm : Str → Nat → Bool) (s : Str) : Nat → Nat → List (Str × Str)
  | 0, _ => []
  | fuel + 1, cur =>
    match findFrom secOpen s cur with
    | none => []
    | some p =>
      match findFrom quoteClose s (p + secOpen.length + 1) with
      | none => scanWithAux isTerm s fuel (p + 1)
      | some k =>
        match findIdxFromAux (isTerm s) (s.length + 1 - (k + 2)) (k + 2) with
        | none => scanWithAux isTerm s fuel (p + 1)
        | some m =>
          (strSlice s (p + secOpen.length) k, strSlice s (k + 2) m)
            :: scanWithAux isTerm s fuel m

def scanWith (isTerm : Str → Nat → Bool) (s : Str) : List (Str × Str) :=
  scanWithAux isTerm s (s.length + 2) 0

/-- The raw `(title, body)` matches of the section pattern of the source. -/
def sectionScan (s : Str) : List (Str × Str) := scanWith codeTermAt s

/-- `extract_flowchart_sections(gt)`: sign name (group of the sign pattern,
stripped; `"Unknown"` when the search fails) and the dict built by
`sections[title.strip()] = re.sub(r'\s+', ' ', body.strip())` over the
section matches in scan order. -/
def extract_flowchart_sections (gt : Str) : Str × List (Str × Str) :=
  let name := match signSearch gt with
    | some n => strip n
    | none => "Unknown".data
  let sections := (sectionScan gt).foldl
    (fun d tb => dictInsert d (strip tb.1) (collapseWs (strip tb.2))) []
  (name, sections)

/-- Length of the `KEY ?WORDS?` match at position `i` (case-insensitive),
`none` when the marker does not match there.  ` ?` is one optional literal
space (tried first, as the quantifier is greedy), `S?` one optional `s`. -/
def kwMarkerLenAt (s : Str) (i : Nat) : Option Nat :=
  if ciStartsWithAt "KEY".data s i then
    if s.get? (i + 3) = some ' ' && ciStartsWithAt "WORD".data s (i + 4) then
      some (if ciStartsWithAt "S".data s (i + 8) then 9 else 8)
    else if ciStartsWithAt "WORD".data s (i + 3) then
      some (if ciStartsWithAt "S".data s (i + 7) then 8 else 7)
    else none
  else none

/-- `re.findall(r'"(.*?)"', s)`: the texts between successive pairs of
double quotes, left to right. -/
def afterQuote : Str → Option Str
  | [] => none
  | c :: rest => if c = '"' then some rest else afterQuote rest

def takeUntilQuote : Str → Option (Str × Str)
  | [] => none
  | c :: rest =>
    if c = '"' then some ([], rest)
    else match takeUntilQuote rest with
      | some ar => some (c :: ar.1, ar.2)
      | none => none

def findallQuotesAux : Nat → Str → List Str
  | 0, _ => []
  | fuel + 1, l =>
    match afterQuote l with
    | none => []
    | some rest =>
      match takeUntilQuote rest with
      | none => []
      | some capRem => capRem.1 :: findallQuotesAux fuel capRem.2

def findallQuotes (l : Str) : List Str := findallQuotesAux l.length l

/-- `extract_keywords(gt)`: find the leftmost case-insensitive `KEY ?WORDS?`
marker; the group `(.*)` with DOTALL is the whole rest of the text, and the
keywords are its double-quoted substrings.  Empty list when no marker. -/
def extract_keywords (gt : Str) : List Str :=
  match findIdxFromAux (fun i => (kwMarkerLenAt gt i).isSome) (gt.length + 1) 0 with
  | none => []
  | some i =>
    match kwMarkerLenAt gt i with
    | some len => findallQuotes (gt.drop (i + len))
    | none => []

/-! ## Question templates (verbatim from the source) -/

def SECTION_QUESTIONS : List (Str × List Str) := [
  ("1".data, [
    "What is the immediate action a driver should take when seeing the '{sign}' sign?".data,
    "When is the '{sign}' sign typically used?".data,
    "What safety rule does section {section} enforce in the '{sign}' sign?".data]),
  ("2".data, [
    "What should a driver do at a '{sign}' when there is no stop line?".data,
    "How does a driver react to a '{sign}' when there's a pedestrian crossing?".data,
    "What does section {section} of the '{sign}' sign indicate?".data]),
  ("3".data, [
    "How should the driver behave in construction zones near a '{sign}'?".data,
    "What does the '{sign}' indicate at a railway crossing?".data,
    "What special caution is required in section {section} of the '{sign}' sign?".data]),
  ("4".data, [
    "When is it prohibited to stop near a '{sign}'?".data,
    "What are unsafe stopping locations for a driver near a '{sign}'?".data,
    "Why must a driver be extra careful around section {section} of the '{sign}' sign?".data])]

def GENERIC_SECTION_TEMPLATES : List Str := [
  "What does section {section} of the '{sign}' sign mean?".data,
  "Explain the rule under section {section} for the '{sign}' traffic sign.".data,
  "How should drivers behave according to section {section} of the '{sign}' sign?".data]

def KEYWORD_TEMPLATES : List Str := [
  "How is '{kw}' handled when a driver encounters the '{sign}' sign?".data,
  "Explain why '{kw}' is important under the '{sign}' sign.".data,
  "What is the implication of '{kw}' for drivers near the '{sign}' sign?".data,
  "In what situation does '{kw}' apply under the '{sign}' sign?".data]

def SCENARIO_TEMPLATES : List Str := [
  "If a driver is near a '{sign}' sign and sees '{kw}', what should they do?".data,
  "Describe what action should be taken if '{kw}' occurs near a '{sign}' sign.".data,
  "Why must a driver be cautious of '{kw}' when the '{sign}' sign is present?".data,
  "What could happen if a driver ignores the '{kw}' instruction under the '{sign}' sign?".data]

/-! ## Template formatting -/

/-- Python `template.format(name1=v1, ...)` restricted to the plain
`{name}` placeholders the fixed templates use: each `{name}` occurrence is
replaced by its value; a substituted value is spliced verbatim, never
rescanned. -/
def substAux (vars : List (Str × Str)) : Nat → Str → Str
  | 0, _ => []
  | _ + 1, [] => []
  | fuel + 1, c :: rest =>
    match vars.find? (fun nv => startsWith ("\x7b".data ++ nv.1 ++ "\x7d".data) (c :: rest)) with
    | some nv => nv.2 ++ substAux vars fuel ((c :: rest).drop (nv.1.length + 2))
    | none => c :: substAux vars fuel rest

def subst (vars : List (Str × Str)) (t : Str) : Str := substAux vars t.length t

/-- One emitted record `{"image": ..., "question": ..., "answer": ...}`. -/
structure QAPair where
  image : PyVal
  question : Str
  answer : Str

/-- `SECTION_QUESTIONS.get(section_no, GENERIC_SECTION_TEMPLATES)`. -/
def sectionTemplatesFor (secNo : Str) : List Str :=
  match lookupStr SECTION_QUESTIONS secNo with
  | some ts => ts
  | none => GENERIC_SECTION_TEMPLATES

/-- The section loop of `generate_qa_pairs`: for each `(section_no,
section_text)` in dict order, one pair per template of the selected set,
`question = template.format(sign=sign_name, section=section_no)`,
`answer = section_text`. -/
def sectionPairs (img : PyVal) (sign : Str) (sections : List (Str × Str)) : List QAPair :=
  sections.flatMap fun sb =>
    (sectionTemplatesFor sb.1).map fun t =>
      ⟨img, subst [("sign".data, sign), ("section".data, sb.1)] t, sb.2⟩

/-- `f"In the context of the '{sign_name}' sign, the keyword '{kw}' relates
to: {chosen_section}"`. -/
def kwAnswer (sign kw body : Str) : Str :=
  "In the context of the '".data ++ sign ++ "' sign, the keyword '".data ++ kw
    ++ "' relates to: ".data ++ body

/-- `random.choice(list(sections.values())) if sections else "Refer to sign
rules."`: the single body drawn for the keyword with (0-based) index `i` of
the sampled list; `choose` is the oracle standing for `random.choice`. -/
def chosenBody (sections : List (Str × Str)) (choose : Nat → List Str → Str) (i : Nat) : Str :=
  match sections with
  | [] => "Refer to sign rules.".data
  | _ :: _ => choose i (sections.map Prod.snd)

/-- The keyword loop of `generate_qa_pairs`: for each sampled keyword, one
section body is drawn, then one pair per template of
`KEYWORD_TEMPLATES + SCENARIO_TEMPLATES`. -/
def keywordPairs (img : PyVal) (sign : Str) (sections : List (Str × Str))
    (sampled : List Str) (choose : Nat → List Str → Str) : List QAPair :=
  sampled.enum.flatMap fun ik =>
    (KEYWORD_TEMPLATES ++ SCENARIO_TEMPLATES).map fun t =>
      ⟨img, subst [("kw".data, ik.2), ("sign".data, sign)] t,
        kwAnswer sign ik.2 (chosenBody sections choose ik.1)⟩

/-- The body of the per-entry `try` block after extraction: all pairs the
entry appends.  `sampler` stands for `random.sample(keywords,
min(len(keywords), 5))`, `choose` for the per-keyword `random.choice`. -/
def entryPairs (sampler : List Str → List Str) (choose : Nat → List Str → Str)
    (img : PyVal) (gt : Str) : List QAPair :=
  let ns := extract_flowchart_sections gt
  let keywords := extract_keywords gt
  sectionPairs img ns.1 ns.2 ++ keywordPairs img ns.1 ns.2 (sampler keywords) choose

/-- The per-entry `try` block of `generate_qa_pairs`.  The only statement in
it that can raise is the extraction itself: `re.search`/`re.finditer` raise
`TypeError` when `ground_truth` is not a string.  Everything after the
extraction (template formatting over fixed templates, sampling with
`min(len, 5)`, appending) is total, so the block either fails before any
pair of the entry is built, or returns all of them. -/
def tryProcessEntry (sampler : List Str → List Str) (choose : Nat → List Str → Str)
    (img : PyVal) (gtv : PyVal) : Except Str (List QAPair) :=
  match gtv with
  | .str s => .ok (entryPairs sampler choose img s)
  | _ => .error "TypeError: expected string or bytes-like object".data

/-- `generate_qa_pairs(handbook_data)`: fold over the entries, reading
`entry["image"]` and `entry["ground_truth"]` outside the `try` (a failure
there propagates and aborts the whole run, hence the `Except`), then the
guarded per-entry block, whose failure only skips the entry.  `sampler` and
`choose` take the entry index first: each entry's draws are independent
oracle values. -/
def generateAux (sampler : Nat → List Str → List Str)
    (choose : Nat → Nat → List Str → Str) : Nat → List PyVal → Except Str (List QAPair)
  | _, [] => .ok []
  | i, e :: rest =>
    match pyGetItem e "image".data with
    | .error msg => .error msg
    | .ok img =>
      match pyGetItem e "ground_truth".data with
      | .error msg => .error msg
      | .ok gtv =>
        let ps := match tryProcessEntry (sampler i) (choose i) img gtv with
          | .ok ps => ps
          | .error _ => []
        match generateAux sampler choose (i + 1) rest with
        | .error msg => .error msg
        | .ok restPs => .ok (ps ++ restPs)

def generate_qa_pairs (sampler : Nat → List Str → List Str)
    (choose : Nat → Nat → List Str → Str) (handbook_data : List PyVal) :
    Except Str (List QAPair) :=
  generateAux sampler choose 0 handbook_data

/-- What one entry contributes to the output when the run does not abort:
its full pair list on success, nothing on a skipped entry. -/
def entryContribution (sampler : Nat → List Str → List Str)
    (choose : Nat → Nat → List Str → Str) (i : Nat) (e : PyVal) : List QAPair :=
  match pyGetItem e "image".data, pyGetItem e "ground_truth".data with
  | .ok img, .ok gtv =>
    match tryProcessEntry (sampler i) (choose i) img gtv with
    | .ok ps => ps
    | .error _ => []
  | _, _ => []

/-- `load_handbook` after `json.load`: the `isinstance(data, list)` check and
the per-entry membership checks `"image" in entry`, `"ground_truth" in
entry` (short-circuit order as in the source). -/
def checkEntries : List PyVal → Except Str Unit
  | [] => .ok ()
  | e :: rest =>
    match pyContains "image".data e with
    | .error msg => .error msg
    | .ok b1 =>
      if b1 then
        match pyContains "ground_truth".data e with
        | .error msg => .error msg
        | .ok b2 =>
          if b2 then checkEntries rest
          else .error "Each entry must contain 'image' and 'ground_truth'.".data
      else .error "Each entry must contain 'image' and 'ground_truth'.".data

def load_handbook (data : PyVal) : Except Str (List PyVal) :=
  match data with
  | .list xs =>
    match checkEntries xs with
    | .error msg => .error msg
    | .ok _ => .ok xs
  | _ => .error "Handbook data should be a list.".data

/-- Whether an `Except` computation succeeded. -/
def exceptIsOk {e a : Type} : Except e a → Bool
  | .ok _ => true
  | .error _ => false

/-- Modelled from the spec: an element of the top-level array "has the
`image` (resp. `ground_truth`) field" when it is a mapping that carries that
key.  Plain strings and other non-mapping values have no fields. -/
def specHasField (k : Str) (v : PyVal) : Bool :=
  match v with
  | .dict kvs => kvs.any fun kv => decide (kv.1 = k)
  | _ => false

/-- Modelled from the spec: the claimed reading of the section-body
lookahead, in which the keyword marker is a case-insensitive `KEY WORD(S)`
marker (variants such as `key words` or `KEYWORD`, i.e. `KEY ?WORDS?`
case-insensitively) rather than the source's literal `KEY WORDS`. -/
def ciTermAt (s : Str) (i : Nat) : Bool :=
  startsWithAt termSection s i || (kwMarkerLenAt s i).isSome || startsWithAt termClose s i

/-! ## Concrete inputs used by witnesses and counterexamples -/

def imgX : PyVal := .str "img/x.png".data

/-- Ground truth whose section body is followed by a lower-case
`key words` marker before the closing tag. -/
def gtCase : Str :=
  "<traffic_sign name=\"X\"><section title=\"1\">Do stop. key words \"a\"</traffic_sign>".data

/-- A full happy-path ground truth: sign name, two sections, keywords. -/
def gtFull : Str :=
  ("<traffic_sign name=\"Stop\"><section title=\"1\">Alpha  text "
    ++ "<section title=\"2\">Beta text KEY WORDS \"k1\" \"k2\"</traffic_sign>").data

/-- A ground truth with a section whose identifier is outside the template
map and no sign tag. -/
def gtGeneric : Str := "<section title=\"5\">Body</traffic_sign>".data

/-- A ground truth with no tags at all. -/
def gtPlain : Str := "hello world".data

def entryFull : PyVal :=
  .dict [("image".data, imgX), ("ground_truth".data, .str gtFull)]

/-- An entry whose `ground_truth` is not a string: extraction raises
`TypeError` inside the per-entry `try`. -/
def entryBad : PyVal :=
  .dict [("image".data, .str "img/bad.png".data), ("ground_truth".data, .int 7)]

/-- A string element whose text contains both required field names. -/
def strEntry : PyVal := .str "image ground_truth".data

def samp1 : List Str → List Str := fun l => l.take 5
def cho1 : Nat → List Str → Str := fun _ l => l.headD []
def samp2 : Nat → List Str → List Str := fun _ l => l.take 5
def cho2 : Nat → Nat → List Str → Str := fun _ _ l => l.headD []


/-! ## Helper lemmas -/

theorem findIdxFromAux_sound {p : Nat → Bool} :
    ∀ {fuel i j : Nat}, findIdxFromAux p fuel i = some j →
      p j = true ∧ i ≤ j ∧ ∀ x, i ≤ x → x < j → p x = false := by
  intro fuel
  induction fuel with
  | zero => intro i j h; simp [findIdxFromAux] at h
  | succ n ih =>
    intro i j h
    by_cases hp : p i = true
    · simp [findIdxFromAux, hp] at h
      subst h
      exact ⟨hp, Nat.le_refl _, fun x hx hx' => absurd hx' (Nat.not_lt.mpr hx)⟩
    · simp [findIdxFromAux, hp] at h
      obtain ⟨hj, hij, hmin⟩ := ih h
      refine ⟨hj, Nat.le_of_succ_le hij, fun x hx hx' => ?_⟩
      rcases Nat.eq_or_lt_of_le hx with rfl | hlt
      · exact Bool.eq_false_iff.mpr hp
      · exact hmin x hlt hx'

theorem findIdxFromAux_eq_none {p : Nat → Bool} :
    ∀ {fuel i : Nat}, (∀ x, i ≤ x → x < i + fuel → p x = false) →
      findIdxFromAux p fuel i = none := by
  intro fuel
  induction fuel with
  | zero => intro i _; rfl
  | succ n ih =>
    intro i h
    have hi : p i = false := h i (Nat.le_refl _) (by omega)
    simp [findIdxFromAux, hi]
    exact ih fun x hx hx' => h x (by omega) (by omega)

theorem findFrom_sound {pat s : Str} {i j : Nat} (h : findFrom pat s i = some j) :
    startsWithAt pat s j = true ∧ i ≤ j ∧
      ∀ x, i ≤ x → x < j → startsWithAt pat s x = false :=
  findIdxFromAux_sound h

/-- A nonempty pattern cannot match past the end of the text. -/
theorem startsWithAt_false_of_gt_length {pat s : Str} {x : Nat}
    (hpat : pat ≠ []) (hx : s.length < x) : startsWithAt pat s x = false := by
  cases pat with
  | nil => exact absurd rfl hpat
  | cons p ps =>
    have : s.drop x = [] := List.drop_eq_nil_of_le (Nat.le_of_lt hx)
    simp [startsWithAt, this, startsWith]

/-- If the pattern matches nowhere in the text, the scan finds nothing. -/
theorem findFrom_eq_none {pat s : Str} {i : Nat}
    (h : ∀ x, x ≤ s.length → startsWithAt pat s x = false) (hpat : pat ≠ []) :
    findFrom pat s i = none := by
  refine findIdxFromAux_eq_none fun x _ _ => ?_
  by_cases hx : x ≤ s.length
  · exact h x hx
  · exact startsWithAt_false_of_gt_length hpat (Nat.lt_of_not_le hx)

theorem length_flatMap_const {α β : Type} (l : List α) (f : α → List β) (n : Nat)
    (h : ∀ x ∈ l, (f x).length = n) : (l.flatMap f).length = n * l.length := by
  induction l with
  | nil => simp
  | cons a t ih =>
    rw [List.flatMap_cons, List.length_append, h a (List.mem_cons_self a t),
      ih fun x hx => h x (List.mem_cons_of_mem a hx), List.length_cons]
    ring

/-- Elimination form for membership in the section pairs. -/
theorem mem_sectionPairs {img : PyVal} {sign : Str} {sections : List (Str × Str)}
    {p : QAPair} (h : p ∈ sectionPairs img sign sections) :
    ∃ sb ∈ sections, ∃ t ∈ sectionTemplatesFor sb.1,
      p = ⟨img, subst [("sign".data, sign), ("section".data, sb.1)] t, sb.2⟩ := by
  rw [sectionPairs, List.mem_flatMap] at h
  obtain ⟨sb, hsb, hp⟩ := h
  rw [List.mem_map] at hp
  obtain ⟨t, ht, hp⟩ := hp
  exact ⟨sb, hsb, t, ht, hp.symm⟩

/-- Introduction form for membership in the section pairs. -/
theorem sectionPairs_mem_intro {img : PyVal} {sign : Str} {sections : List (Str × Str)}
    {sb : Str × Str} (hsb : sb ∈ sections) {t : Str} (ht : t ∈ sectionTemplatesFor sb.1) :
    (⟨img, subst [("sign".data, sign), ("section".data, sb.1)] t, sb.2⟩ : QAPair)
      ∈ sectionPairs img sign sections := by
  rw [sectionPairs, List.mem_flatMap]
  exact ⟨sb, hsb, List.mem_map.mpr ⟨t, ht, rfl⟩⟩

/-- Elimination form for membership in the keyword pairs. -/
theorem mem_keywordPairs {img : PyVal} {sign : Str} {sections : List (Str × Str)}
    {sampled : List Str} {choose : Nat → List Str → Str} {p : QAPair}
    (h : p ∈ keywordPairs img sign sections sampled choose) :
    ∃ ik ∈ sampled.enum, ∃ t ∈ KEYWORD_TEMPLATES ++ SCENARIO_TEMPLATES,
      p = ⟨img, subst [("kw".data, ik.2), ("sign".data, sign)] t,
        kwAnswer sign ik.2 (chosenBody sections choose ik.1)⟩ := by
  rw [keywordPairs, List.mem_flatMap] at h
  obtain ⟨ik, hik, hp⟩ := h
  rw [List.mem_map] at hp
  obtain ⟨t, ht, hp⟩ := hp
  exact ⟨ik, hik, t, ht, hp.symm⟩

/-- C1 (counterexample): the combined keyword/scenario template set has 8
templates, not 9, and a sampled keyword of a concrete entry yields 8 pairs,
not 9. -/
theorem C1_counterexample :
    (KEYWORD_TEMPLATES ++ SCENARIO_TEMPLATES).length ≠ 9 ∧
    (keywordPairs (PyVal.str "i".data) "Stop".data [] ["k".data]
      (fun _ _ => [])).length ≠ 9 := by
  constructor <;> decide

/-- C1 (amended): for every entry and every sampled keyword, the Expander
applies every template of the combined keyword-template and
scenario-template set, which contains 8 templates in total, so each sampled
keyword yields exactly 8 question/answer pairs. -/
theorem C1_every_template_eight_pairs (img : PyVal) (sign : Str)
    (sections : List (Str × Str)) (sampled : List Str)
    (choose : Nat → List Str → Str) :
    (KEYWORD_TEMPLATES ++ SCENARIO_TEMPLATES).length = 8 ∧
    keywordPairs img sign sections sampled choose =
      sampled.enum.flatMap (fun ik =>
        (KEYWORD_TEMPLATES ++ SCENARIO_TEMPLATES).map fun t =>
          ⟨img, subst [("kw".data, ik.2), ("sign".data, sign)] t,
            kwAnswer sign ik.2 (chosenBody sections choose ik.1)⟩) ∧
    (keywordPairs img sign sections sampled choose).length = 8 * sampled.length := by
  refine ⟨rfl, rfl, ?_⟩
  rw [keywordPairs, length_flatMap_const _ _ 8 ?_, List.enum_length]
  intro x _
  rw [List.length_map]
  rfl

/-- C4: every pair built by the per-entry block carries the entry's `image`
value unchanged. -/
theorem C4_image_invariant (sampler : List Str → List Str)
    (choose : Nat → List Str → Str) (img gtv : PyVal) (ps : List QAPair)
    (h : tryProcessEntry sampler choose img gtv = .ok ps) :
    ∀ p ∈ ps, p.image = img := by
  intro p hp
  rcases gtv with s | n | xs | kvs | b | _
  · simp only [tryProcessEntry, Except.ok.injEq] at h
    subst h
    rw [entryPairs, List.mem_append] at hp
    rcases hp with hp | hp
    · obtain ⟨sb, _, t, _, rfl⟩ := mem_sectionPairs hp
      rfl
    · obtain ⟨ik, _, t, _, rfl⟩ := mem_keywordPairs hp
      rfl
  all_goals simp [tryProcessEntry] at h

theorem lookupStr_SECTION_QUESTIONS_length {secNo : Str} {ts : List Str}
    (h : lookupStr SECTION_QUESTIONS secNo = some ts) : ts.length = 3 := by
  simp only [SECTION_QUESTIONS, lookupStr] at h
  split_ifs at h
  all_goals simp only [Option.some.injEq] at h
  all_goals subst h
  all_goals rfl

/-- C5: a section whose identifier is a key of the fixed template map gets
exactly that key's 3 templates, any other identifier gets the 3 generic
fallback templates, and every section-based pair's answer is the section's
body verbatim. -/
theorem C5_section_template_selection (img : PyVal) (sign : Str)
    (sections : List (Str × Str)) (secNo body : Str)
    (h : (secNo, body) ∈ sections) :
    (sectionTemplatesFor secNo).length = 3
    ∧ (∀ ts, lookupStr SECTION_QUESTIONS secNo = some ts →
        sectionTemplatesFor secNo = ts)
    ∧ (lookupStr SECTION_QUESTIONS secNo = none →
        sectionTemplatesFor secNo = GENERIC_SECTION_TEMPLATES)
    ∧ (∀ t ∈ sectionTemplatesFor secNo,
        (⟨img, subst [("sign".data, sign), ("section".data, secNo)] t, body⟩ : QAPair)
          ∈ sectionPairs img sign sections)
    ∧ (∀ p ∈ sectionPairs img sign sections, ∃ sb ∈ sections,
        p.answer = sb.2 ∧ ∃ t ∈ sectionTemplatesFor sb.1,
          p.question = subst [("sign".data, sign), ("section".data, sb.1)] t) := by
  refine ⟨?_, ?_, ?_, ?_, ?_⟩
  · rcases hl : lookupStr SECTION_QUESTIONS secNo with _ | ts
    · simp [sectionTemplatesFor, hl, GENERIC_SECTION_TEMPLATES]
    · rw [sectionTemplatesFor, hl]
      exact lookupStr_SECTION_QUESTIONS_length hl
  · intro ts hl
    rw [sectionTemplatesFor, hl]
  · intro hl
    rw [sectionTemplatesFor, hl]
  · intro t ht
    exact sectionPairs_mem_intro h ht
  · intro p hp
    obtain ⟨sb, hsb, t, ht, rfl⟩ := mem_sectionPairs hp
    exact ⟨sb, hsb, rfl, t, ht, rfl⟩

/-- Witness for C5 at a concrete entry with one section titled `1`. -/
theorem C5_section_template_selection_witness :
    (("1".data, "B".data) ∈ [(("1".data : Str), ("B".data : Str))])
    ∧ ((sectionTemplatesFor "1".data).length = 3
    ∧ (∀ ts, lookupStr SECTION_QUESTIONS "1".data = some ts →
        sectionTemplatesFor "1".data = ts)
    ∧ (lookupStr SECTION_QUESTIONS "1".data = none →
        sectionTemplatesFor "1".data = GENERIC_SECTION_TEMPLATES)
    ∧ (∀ t ∈ sectionTemplatesFor "1".data,
        (⟨imgX, subst [("sign".data, "Stop Sign".data), ("section".data, "1".data)] t,
          "B".data⟩ : QAPair)
          ∈ sectionPairs imgX "Stop Sign".data [("1".data, "B".data)])
    ∧ (∀ p ∈ sectionPairs imgX "Stop Sign".data [("1".data, "B".data)],
        ∃ sb ∈ [(("1".data : Str), ("B".data : Str))],
        p.answer = sb.2 ∧ ∃ t ∈ sectionTemplatesFor sb.1,
          p.question = subst [("sign".data, "Stop Sign".data), ("section".data, sb.1)] t)) :=
  ⟨by decide,
   C5_section_template_selection imgX "Stop Sign".data [("1".data, "B".data)]
     "1".data "B".data (by decide)⟩

/-- C6: every keyword-based pair's answer embeds the single section body
drawn for its keyword — one draw per keyword, reused across all templates
of that keyword; the draw is an element of the available section bodies, or
the fixed fallback string when the entry has no sections. -/
theorem C6_one_draw_per_keyword (img : PyVal) (sign : Str)
    (sections : List (Str × Str)) (sampled : List Str)
    (choose : Nat → List Str → Str)
    (hch : ∀ i vals, vals ≠ [] → choose i vals ∈ vals) :
    ∀ p ∈ keywordPairs img sign sections sampled choose, ∃ i kw,
      sampled[i]? = some kw
      ∧ p.answer = kwAnswer sign kw (chosenBody sections choose i)
      ∧ (sections = [] → chosenBody sections choose i = "Refer to sign rules.".data)
      ∧ (sections ≠ [] → chosenBody sections choose i ∈ sections.map Prod.snd) := by
  intro p hp
  obtain ⟨ik, hik, t, ht, rfl⟩ := mem_keywordPairs hp
  refine ⟨ik.1, ik.2, ?_, rfl, ?_, ?_⟩
  · exact List.mem_enum_iff_getElem?.mp hik
  · intro hs
    subst hs
    rfl
  · intro hs
    rcases sections with _ | ⟨sb, rest⟩
    · exact absurd rfl hs
    · simp only [chosenBody]
      exact hch ik.1 _ (by simp)

/-- Witness for C4 at a concrete entry with one generic-template section. -/
theorem C4_image_invariant_witness :
    (⟨imgX, subst [("sign".data, "Unknown".data), ("section".data, "5".data)]
        "What does section {section} of the '{sign}' sign mean?".data,
      "Body".data⟩ : QAPair).image = imgX :=
  C4_image_invariant samp1 cho1 imgX (.str gtGeneric) _ rfl _
    (List.mem_append_left _
      (@sectionPairs_mem_intro imgX "Unknown".data
        (extract_flowchart_sections gtGeneric).2 ("5".data, "Body".data) (by decide)
        "What does section {section} of the '{sign}' sign mean?".data (by decide)))

/-- Witness for C6 at a concrete entry with one keyword and no sections. -/
theorem C6_one_draw_per_keyword_witness :
    ∃ i kw, (["k".data] : List Str)[i]? = some kw
      ∧ (⟨imgX, subst [("kw".data, "k".data), ("sign".data, "S".data)]
           "How is '{kw}' handled when a driver encounters the '{sign}' sign?".data,
         kwAnswer "S".data "k".data (chosenBody [] cho1 0)⟩ : QAPair).answer
        = kwAnswer "S".data kw (chosenBody [] cho1 i)
      ∧ (([] : List (Str × Str)) = [] →
          chosenBody [] cho1 i = "Refer to sign rules.".data)
      ∧ (([] : List (Str × Str)) ≠ [] →
          chosenBody [] cho1 i ∈ ([] : List (Str × Str)).map Prod.snd) :=
  C6_one_draw_per_keyword imgX "S".data [] ["k".data] cho1
    (fun i vals h => by
      cases vals with
      | nil => exact absurd rfl h
      | cons a l => exact List.mem_cons_self a l)
    _ (List.Mem.head _)

theorem generateAux_ok (sampler : Nat → List Str → List Str)
    (choose : Nat → Nat → List Str → Str) :
    ∀ (entries : List PyVal) (i : Nat),
    (∀ e ∈ entries, exceptIsOk (pyGetItem e "image".data) = true ∧
      exceptIsOk (pyGetItem e "ground_truth".data) = true) →
    generateAux sampler choose i entries =
      .ok (((entries.enumFrom i).map fun ie =>
        entryContribution sampler choose ie.1 ie.2).flatten) := by
  intro entries
  induction entries with
  | nil => intro i _; rfl
  | cons e rest ih =>
    intro i h
    obtain ⟨h1, h2⟩ := h e (List.mem_cons_self e rest)
    rcases hg1 : pyGetItem e "image".data with msg | img
    · rw [hg1] at h1
      simp [exceptIsOk] at h1
    rcases hg2 : pyGetItem e "ground_truth".data with msg | gtv
    · rw [hg2] at h2
      simp [exceptIsOk] at h2
    have hrest := ih (i + 1) fun x hx => h x (List.mem_cons_of_mem e hx)
    simp only [generateAux, hg1, hg2, hrest, List.enumFrom, List.map_cons,
      List.flatten_cons, entryContribution]

/-- C2: when every entry's two field reads succeed (as they do for entries
the Loader admitted as mappings), the run never aborts and the output is the
concatenation, in entry order, of per-entry contributions; an entry whose
guarded block raises contributes no pair at all (the skip is atomic) and the
entries after it are still processed. -/
theorem C2_atomic_skip (sampler : Nat → List Str → List Str)
    (choose : Nat → Nat → List Str → Str) (entries : List PyVal)
    (h : ∀ e ∈ entries, exceptIsOk (pyGetItem e "image".data) = true ∧
      exceptIsOk (pyGetItem e "ground_truth".data) = true) :
    generate_qa_pairs sampler choose entries =
      .ok ((entries.enum.map fun ie =>
        entryContribution sampler choose ie.1 ie.2).flatten)
    ∧ (∀ i e img gtv msg, pyGetItem e "image".data = .ok img →
        pyGetItem e "ground_truth".data = .ok gtv →
        tryProcessEntry (sampler i) (choose i) img gtv = .error msg →
        entryContribution sampler choose i e = []) := by
  constructor
  · rw [generate_qa_pairs, generateAux_ok sampler choose entries 0 h]
    rfl
  · intro i e img gtv msg hg1 hg2 ht
    rw [entryContribution, hg1, hg2]
    simp [ht]

/-- Witness for C2: a run over a well-formed entry followed by an entry
whose `ground_truth` is an integer (its extraction raises, it contributes
nothing) still succeeds and decomposes entry by entry. -/
theorem C2_atomic_skip_witness :
    generate_qa_pairs samp2 cho2 [entryFull, entryBad] =
      .ok ((([entryFull, entryBad] : List PyVal).enum.map fun ie =>
        entryContribution samp2 cho2 ie.1 ie.2).flatten)
    ∧ (∀ i e img gtv msg, pyGetItem e "image".data = .ok img →
        pyGetItem e "ground_truth".data = .ok gtv →
        tryProcessEntry (samp2 i) (cho2 i) img gtv = .error msg →
        entryContribution samp2 cho2 i e = []) :=
  C2_atomic_skip samp2 cho2 [entryFull, entryBad] (by decide)

theorem checkEntries_ok_iff (xs : List PyVal) :
    checkEntries xs = .ok () ↔
      ∀ e ∈ xs, pyContains "image".data e = .ok true ∧
        pyContains "ground_truth".data e = .ok true := by
  induction xs with
  | nil => simp [checkEntries]
  | cons e rest ih =>
    constructor
    · intro h
      rw [checkEntries] at h
      rcases h1 : pyContains "image".data e with msg | b1 <;> rw [h1] at h
      · cases h
      · cases b1
        · simp at h
        · rcases h2 : pyContains "ground_truth".data e with msg | b2 <;> rw [h2] at h
          · simp at h
          · cases b2
            · simp at h
            · simp only [if_pos] at h
              intro x hx
              rcases List.mem_cons.mp hx with rfl | hx'
              · exact ⟨h1, h2⟩
              · exact (ih.mp (by simpa using h)) x hx'
    · intro h
      obtain ⟨h1, h2⟩ := h e (List.mem_cons_self _ _)
      rw [checkEntries, h1, h2]
      simpa using ih.mpr fun x hx => h x (List.mem_cons_of_mem _ hx)

/-- C7 (amended): the Loader succeeds exactly when the top-level value is a
list and Python's containment check `"image" in entry`,
`"ground_truth" in entry` yields `True` for every element — key presence for
mappings, substring containment for strings.  It fails with an error when
the top-level value is not a list or some element's check fails or raises. -/
theorem C7_loader_validation (data : PyVal) :
    (∀ xs, load_handbook data = .ok xs ↔
      (data = .list xs ∧ ∀ e ∈ xs, pyContains "image".data e = .ok true ∧
        pyContains "ground_truth".data e = .ok true))
    ∧ ((∀ xs, data ≠ .list xs) → ∃ msg, load_handbook data = .error msg)
    ∧ (∀ xs, data = .list xs →
        (∃ e ∈ xs, ¬(pyContains "image".data e = .ok true ∧
          pyContains "ground_truth".data e = .ok true)) →
        ∃ msg, load_handbook data = .error msg) := by
  refine ⟨?_, ?_, ?_⟩
  · intro xs
    constructor
    · intro h
      cases data with
      | list ys =>
        rcases hc : checkEntries ys with msg | u
        · rw [load_handbook, hc] at h
          cases h
        · rw [load_handbook, hc] at h
          cases h
          cases u
          exact ⟨rfl, (checkEntries_ok_iff _).mp hc⟩
      | str s => simp [load_handbook] at h
      | int n => simp [load_handbook] at h
      | dict kvs => simp [load_handbook] at h
      | bool b => simp [load_handbook] at h
      | null => simp [load_handbook] at h
    · rintro ⟨rfl, hall⟩
      have hc : checkEntries xs = .ok () := (checkEntries_ok_iff xs).mpr hall
      rw [load_handbook, hc]
  · intro hne
    cases data with
    | list ys => exact absurd rfl (hne ys)
    | str s => exact ⟨_, rfl⟩
    | int n => exact ⟨_, rfl⟩
    | dict kvs => exact ⟨_, rfl⟩
    | bool b => exact ⟨_, rfl⟩
    | null => exact ⟨_, rfl⟩
  · rintro xs rfl hex
    rcases hc : checkEntries xs with msg | u
    · exact ⟨msg, by rw [load_handbook, hc]⟩
    · exfalso
      obtain ⟨e, he, hne⟩ := hex
      cases u
      exact hne ((checkEntries_ok_iff xs).mp hc e he)

/-- Witness for C7 (amended) at a concrete well-formed dataset. -/
theorem C7_loader_validation_witness :
    load_handbook (.list [entryFull]) = .ok [entryFull] :=
  ((C7_loader_validation (.list [entryFull])).1 [entryFull]).mpr
    ⟨rfl, by
      intro e he
      rw [List.mem_singleton] at he
      subst he
      exact ⟨rfl, rfl⟩⟩

/-- C7 (counterexample): a top-level list whose only element is a plain
string — a value with no fields at all — passes the Loader unchanged, so
the Loader does not fail whenever an element lacks the `image` or
`ground_truth` field. -/
theorem C7_counterexample :
    specHasField "image".data strEntry = false
    ∧ specHasField "ground_truth".data strEntry = false
    ∧ load_handbook (.list [strEntry]) = .ok [strEntry] :=
  ⟨rfl, rfl, rfl⟩

/-- C10: a top-level list whose element is the plain string
`"image ground_truth"` passes validation, because Python's `in` on a string
is substring containment. -/
theorem C10_string_element_passes_validation :
    load_handbook (.list [strEntry]) = .ok [strEntry]
    ∧ pyContains "image".data strEntry = .ok true
    ∧ pyContains "ground_truth".data strEntry = .ok true
    ∧ specHasField "image".data strEntry = false :=
  ⟨rfl, rfl, rfl, rfl⟩

/-- C8: an entry whose ground truth nowhere contains the opening literal
`<traffic_sign name="` of the sign-tag pattern is still processed, with the
sentinel `"Unknown"` as the sign name fed to every question and answer
template. -/
theorem C8_unknown_sign_name (sampler : List Str → List Str)
    (choose : Nat → List Str → Str) (img : PyVal) (gt : Str)
    (h : ∀ x, x ≤ gt.length → startsWithAt signOpen gt x = false) :
    (extract_flowchart_sections gt).1 = "Unknown".data ∧
    entryPairs sampler choose img gt =
      sectionPairs img "Unknown".data (extract_flowchart_sections gt).2 ++
      keywordPairs img "Unknown".data (extract_flowchart_sections gt).2
        (sampler (extract_keywords gt)) choose := by
  have hfind : findFrom signOpen gt 0 = none :=
    findFrom_eq_none (fun x hx => h x hx) (by decide)
  have hsearch : signSearch gt = none := by
    rw [signSearch, signSearchAux, hfind]
  have h1 : (extract_flowchart_sections gt).1 = "Unknown".data := by
    simp only [extract_flowchart_sections, hsearch]
  refine ⟨h1, ?_⟩
  simp only [entryPairs, h1]

/-- Witness for C8 at a concrete tagless ground truth. -/
theorem C8_unknown_sign_name_witness :
    (extract_flowchart_sections gtPlain).1 = "Unknown".data ∧
    entryPairs samp1 cho1 imgX gtPlain =
      sectionPairs imgX "Unknown".data (extract_flowchart_sections gtPlain).2 ++
      keywordPairs imgX "Unknown".data (extract_flowchart_sections gtPlain).2
        (samp1 (extract_keywords gtPlain)) cho1 :=
  C8_unknown_sign_name samp1 cho1 imgX gtPlain (by decide)

theorem lookupStr_append (A B : List (Str × Str)) (t : Str) :
    lookupStr (A ++ B) t = (lookupStr A t).or (lookupStr B t) := by
  induction A with
  | nil => rfl
  | cons kv rest ih =>
    by_cases hk : kv.1 = t
    · simp [lookupStr, hk, Option.or]
    · simp [lookupStr, hk, ih]

theorem lookupStr_dictInsert (d : List (Str × Str)) (k v t : Str) :
    lookupStr (dictInsert d k v) t = if t = k then some v else lookupStr d t := by
  induction d with
  | nil =>
    rcases eq_or_ne t k with rfl | h
    · simp [dictInsert, lookupStr]
    · simp [dictInsert, lookupStr, h, (Ne.symm h)]
  | cons kv rest ih =>
    simp only [dictInsert]
    rcases eq_or_ne kv.1 k with he | he
    · rw [if_pos he]
      rcases eq_or_ne t k with rfl | ht
      · simp [lookupStr]
      · have h1 : ¬ (k = t) := fun hh => ht hh.symm
        have h2 : ¬ (kv.1 = t) := by rw [he]; exact h1
        simp [lookupStr, h1, h2, ht]
    · rw [if_neg he]
      rcases eq_or_ne kv.1 t with h2 | h2
      · have ht : ¬ (t = k) := by rw [← h2]; exact he
        simp [lookupStr, h2, ht]
      · simp [lookupStr, h2, ih]

theorem mem_keys_dictInsert {d : List (Str × Str)} {k v x : Str}
    (h : x ∈ (dictInsert d k v).map Prod.fst) : x ∈ d.map Prod.fst ∨ x = k := by
  induction d with
  | nil =>
    simp [dictInsert] at h
    exact Or.inr h
  | cons kv rest ih =>
    simp only [dictInsert] at h
    split_ifs at h with he
    · simp only [List.map_cons, List.mem_cons] at h
      rcases h with rfl | h
      · exact Or.inr rfl
      · exact Or.inl (by simp only [List.map_cons, List.mem_cons]; exact Or.inr h)
    · simp only [List.map_cons, List.mem_cons] at h
      rcases h with rfl | h
      · exact Or.inl (by simp)
      · rcases ih h with h' | h'
        · exact Or.inl (by simp only [List.map_cons, List.mem_cons]; exact Or.inr h')
        · exact Or.inr h'

theorem nodup_keys_dictInsert {d : List (Str × Str)} {k v : Str}
    (h : (d.map Prod.fst).Nodup) : ((dictInsert d k v).map Prod.fst).Nodup := by
  induction d with
  | nil => simp [dictInsert]
  | cons kv rest ih =>
    simp only [dictInsert]
    split_ifs with he
    · rw [← he]
      simpa using h
    · simp only [List.map_cons, List.nodup_cons] at h ⊢
      refine ⟨?_, ih h.2⟩
      intro hmem
      rcases mem_keys_dictInsert hmem with h' | h'
      · exact h.1 h'
      · exact he h'

theorem lookupStr_foldl_dictInsert (L : List (Str × Str)) :
    ∀ (d : List (Str × Str)) (t : Str),
    lookupStr (L.foldl (fun d p => dictInsert d p.1 p.2) d) t =
      (lookupStr L.reverse t).or (lookupStr d t) := by
  induction L with
  | nil => intro d t; rfl
  | cons p rest ih =>
    intro d t
    rw [List.foldl_cons, ih, List.reverse_cons, lookupStr_append,
      lookupStr_dictInsert, Option.or_assoc]
    refine congrArg (Option.or _) ?_
    rcases eq_or_ne t p.1 with rfl | h
    · simp [lookupStr]
    · simp [lookupStr, h, Ne.symm h, Option.or]

theorem nodup_keys_foldl_dictInsert (L : List (Str × Str)) :
    ∀ d, (d.map Prod.fst).Nodup →
      ((L.foldl (fun d p => dictInsert d p.1 p.2) d).map Prod.fst).Nodup := by
  induction L with
  | nil => intro d h; exact h
  | cons p rest ih =>
    intro d h
    exact ih _ (nodup_keys_dictInsert h)

/-- C9: the section mapping returned by `extract_flowchart_sections` has
pairwise-distinct titles, and looking a title up in it yields the processed
body of the last raw match with that title in scan order (lookup in the
reversed processed match list finds exactly the last occurrence). -/
theorem C9_duplicate_titles_last_wins (gt : Str) :
    (((extract_flowchart_sections gt).2).map Prod.fst).Nodup
    ∧ ∀ t, lookupStr (extract_flowchart_sections gt).2 t =
        lookupStr (((sectionScan gt).map fun tb =>
          (strip tb.1, collapseWs (strip tb.2))).reverse) t := by
  have he : (extract_flowchart_sections gt).2 =
      ((sectionScan gt).map fun tb => (strip tb.1, collapseWs (strip tb.2))).foldl
        (fun d p => dictInsert d p.1 p.2) [] := by
    simp only [extract_flowchart_sections, List.foldl_map]
  constructor
  · rw [he]
    exact nodup_keys_foldl_dictInsert _ _ (by simp)
  · intro t
    rw [he, lookupStr_foldl_dictInsert,
      show lookupStr ([] : List (Str × Str)) t = none from rfl, Option.or_none]

theorem mem_dictInsert {d : List (Str × Str)} {k v : Str} {x : Str × Str}
    (h : x ∈ dictInsert d k v) : x ∈ d ∨ x = (k, v) := by
  induction d with
  | nil =>
    simp [dictInsert] at h
    exact Or.inr h
  | cons kv rest ih =>
    simp only [dictInsert] at h
    split_ifs at h with he
    · rcases List.mem_cons.mp h with rfl | h
      · exact Or.inr rfl
      · exact Or.inl (List.mem_cons_of_mem _ h)
    · rcases List.mem_cons.mp h with rfl | h
      · exact Or.inl (List.mem_cons_self _ _)
      · rcases ih h with h' | h'
        · exact Or.inl (List.mem_cons_of_mem _ h')
        · exact Or.inr h'

theorem mem_foldl_dictInsert {L : List (Str × Str)} :
    ∀ {d x}, x ∈ L.foldl (fun d p => dictInsert d p.1 p.2) d → x ∈ d ∨ x ∈ L := by
  induction L with
  | nil => intro d x h; exact Or.inl h
  | cons p rest ih =>
    intro d x h
    rw [List.foldl_cons] at h
    rcases ih h with h' | h'
    · rcases mem_dictInsert h' with h'' | h''
      · exact Or.inl h''
      · exact Or.inr (by rw [h'']; exact List.mem_cons_self _ _)
    · exact Or.inr (List.mem_cons_of_mem _ h')

theorem scanWithAux_zero (isTerm : Str → Nat → Bool) (s : Str) (cur : Nat) :
    scanWithAux isTerm s 0 cur = [] := rfl

theorem scanWithAux_succ (isTerm : Str → Nat → Bool) (s : Str) (cur n : Nat) :
    scanWithAux isTerm s (n + 1) cur =
      match findFrom secOpen s cur with
      | none => []
      | some p =>
        match findFrom quoteClose s (p + secOpen.length + 1) with
        | none => scanWithAux isTerm s n (p + 1)
        | some k =>
          match findIdxFromAux (isTerm s) (s.length + 1 - (k + 2)) (k + 2) with
          | none => scanWithAux isTerm s n (p + 1)
          | some m =>
            (strSlice s (p + secOpen.length) k, strSlice s (k + 2) m)
              :: scanWithAux isTerm s n m := rfl

/-- Soundness of the section scan: every raw `(title, body)` it emits is
cut at positions with the meaning of the regex — the title tag opens at
`p`, the lazy title group closes at the `">` at `k`, and the lazy body group
ends at `m`, the FIRST position at or after the body start where the
lookahead `isTerm` matches. -/
theorem scanWithAux_sound {isTerm : Str → Nat → Bool} {s : Str} :
    ∀ {fuel cur : Nat} {t b : Str}, (t, b) ∈ scanWithAux isTerm s fuel cur →
      ∃ p k m, startsWithAt secOpen s p = true
        ∧ startsWithAt quoteClose s k = true
        ∧ p + secOpen.length + 1 ≤ k
        ∧ t = strSlice s (p + secOpen.length) k
        ∧ k + 2 ≤ m ∧ isTerm s m = true
        ∧ (∀ x, k + 2 ≤ x → x < m → isTerm s x = false)
        ∧ b = strSlice s (k + 2) m := by
  intro fuel
  induction fuel with
  | zero =>
    intro cur t b h
    rw [scanWithAux_zero] at h
    simp at h
  | succ n ih =>
    intro cur t b h
    rw [scanWithAux_succ] at h
    rcases hp : findFrom secOpen s cur with _ | p
    · simp only [hp] at h
      simp at h
    · simp only [hp] at h
      rcases hk : findFrom quoteClose s (p + secOpen.length + 1) with _ | k
      · simp only [hk] at h
        exact ih h
      · simp only [hk] at h
        rcases hm : findIdxFromAux (isTerm s) (s.length + 1 - (k + 2)) (k + 2)
          with _ | m
        · simp only [hm] at h
          exact ih h
        · simp only [hm] at h
          rcases List.mem_cons.mp h with heq | h'
          · obtain ⟨hpsw, _, _⟩ := findFrom_sound hp
            obtain ⟨hksw, hk2, _⟩ := findFrom_sound hk
            obtain ⟨hmt, hm2, hmmin⟩ := findIdxFromAux_sound hm
            injection heq with h1 h2
            subst h1
            subst h2
            exact ⟨p, k, m, hpsw, hksw, hk2, rfl, hm2, hmt, hmmin, rfl⟩
          · exact ih h'

/-- C3 (amended): every section body captured by the Extractor runs from the
end of its title tag to the FIRST following position where one of the
source's lookahead alternatives matches — the next `<section title`, the
case-SENSITIVE literal `KEY WORDS`, or `</traffic_sign>` — and is then
stripped and whitespace-collapsed.  (A lower-case `key words` does not
terminate a body; see the counterexample.) -/
theorem C3_body_until_first_terminator (gt t b : Str)
    (h : (t, b) ∈ (extract_flowchart_sections gt).2) :
    ∃ rt rb, (rt, rb) ∈ sectionScan gt ∧ t = strip rt ∧ b = collapseWs (strip rb)
      ∧ ∃ p k m, startsWithAt secOpen gt p = true
        ∧ startsWithAt quoteClose gt k = true
        ∧ p + secOpen.length + 1 ≤ k
        ∧ rt = strSlice gt (p + secOpen.length) k
        ∧ k + 2 ≤ m ∧ codeTermAt gt m = true
        ∧ (∀ x, k + 2 ≤ x → x < m → codeTermAt gt x = false)
        ∧ rb = strSlice gt (k + 2) m := by
  have he : (extract_flowchart_sections gt).2 =
      ((sectionScan gt).map fun tb => (strip tb.1, collapseWs (strip tb.2))).foldl
        (fun d p => dictInsert d p.1 p.2) [] := by
    simp only [extract_flowchart_sections, List.foldl_map]
  rw [he] at h
  rcases mem_foldl_dictInsert h with h' | h'
  · simp at h'
  · rw [List.mem_map] at h'
    obtain ⟨⟨rt, rb⟩, hraw, heq⟩ := h'
    injection heq with h1 h2
    subst h1
    subst h2
    have hraw' : (rt, rb) ∈ scanWithAux codeTermAt gt (gt.length + 2) 0 := hraw
    obtain ⟨p, k, m, hs⟩ := scanWithAux_sound hraw'
    exact ⟨rt, rb, hraw, rfl, rfl, p, k, m, hs⟩

/-- C3 (counterexample): on a ground truth whose section text is followed by
a lower-case `key words` marker before the closing tag, the code's body runs
past that marker (the terminator is case-sensitive), while the claimed
case-insensitive reading would cut the body at the marker. -/
theorem C3_counterexample :
    (extract_flowchart_sections gtCase).2
      = [("1".data, "Do stop. key words \"a\"".data)]
    ∧ ((scanWith ciTermAt gtCase).map fun tb =>
        (strip tb.1, collapseWs (strip tb.2)))
      = [("1".data, "Do stop.".data)]
    ∧ ("Do stop. key words \"a\"".data : Str) ≠ "Do stop.".data := by
  exact ⟨by decide, by decide, by decide⟩

/-- Witness for C3 (amended) at the concrete ground truth `gtCase`. -/
theorem C3_body_until_first_terminator_witness :
    (("1".data, "Do stop. key words \"a\"".data) ∈ (extract_flowchart_sections gtCase).2)
    ∧ (∃ rt rb, (rt, rb) ∈ sectionScan gtCase
      ∧ ("1".data : Str) = strip rt
      ∧ ("Do stop. key words \"a\"".data : Str) = collapseWs (strip rb)
      ∧ ∃ p k m, startsWithAt secOpen gtCase p = true
        ∧ startsWithAt quoteClose gtCase k = true
        ∧ p + secOpen.length + 1 ≤ k
        ∧ rt = strSlice gtCase (p + secOpen.length) k
        ∧ k + 2 ≤ m ∧ codeTermAt gtCase m = true
        ∧ (∀ x, k + 2 ≤ x → x < m → codeTermAt gtCase x = false)
        ∧ rb = strSlice gtCase (k + 2) m) :=
  ⟨by decide,
   C3_body_until_first_terminator gtCase "1".data "Do stop. key words \"a\"".data
     (by decide)⟩
